import Mathlib

/-!
Verification of the ISO 14443 Type B protocol engine
(armsrc/iso14443b.c): a shallow embedding of the framing codec, the
tag-side ASK UART, the reader-side BPSK demodulator, the reader receive
loop, the card-selection procedure, the APDU exchange and the
tag-emulation command gate, together with proofs and refutations of the
specification claims about them.

Machine integers are modelled as Nat (unsigned) and Int (signed); the
registers involved never exceed their C widths except where noted, and
there an explicit reduction is applied.  Hardware interaction (FPGA, DMA,
SSC, LEDs, logging) carries no data relevant to the claims and is elided;
sample streams and tag responses are passed to the functions as explicit
lists.
-/

/-- Modelled from the spec: MAX_FRAME_SIZE is defined in armsrc/iso14443b.h,
which is not among the sources.  Section 3 of the spec lists 257 among the
attainable values of the configured maximum frame size (decoded from the
ATQB nibble as 257 for nibbles 9..15 and stored via the setter) and requires
byteCntMax to be at most MAX_FRAME_SIZE, so MAX_FRAME_SIZE = 257. -/
def MAX_FRAME_SIZE : Nat := 257

/-- FWT_TIMEOUT_14B, the default frame-wait timeout in ETUs
(armsrc/iso14443b.c line 44). -/
def FWT_TIMEOUT_14B : Nat := 35312

/-- MAX_TIMEOUT, the clamp applied by the timeout setter
(armsrc/iso14443b.c line 324). -/
def MAX_TIMEOUT : Nat := 40542464

/-- The timeout setter: clamps at MAX_TIMEOUT and returns the value stored
into the global iso14b_timeout (armsrc/iso14443b.c lines 323-330). -/
def iso14b_set_timeout (timeout : Nat) : Nat :=
  if timeout > MAX_TIMEOUT then MAX_TIMEOUT else timeout

/-- The max-frame-size setter: values above 256 are replaced by
MAX_FRAME_SIZE; returns the value stored into Uart.byteCntMax
(armsrc/iso14443b.c lines 332-338). -/
def iso14b_set_maxframesize (size : Nat) : Nat :=
  if size > 256 then MAX_FRAME_SIZE else size

/-- Modelled from the spec: crc14b, the CRC-16 used by Type B framing
(common/crc16.c is not among the sources).  Per section 6 of the spec:
polynomial 0x1021 reflected (0x8408), initial value 0xFFFF, reflected
input and output, final XOR 0xFFFF. -/
def crc14b (data : List Nat) : Nat :=
  (data.foldl
    (fun c b =>
      (List.range 8).foldl
        (fun c _ => if c &&& 1 = 1 then (c >>> 1) ^^^ 0x8408 else c >>> 1)
        (c ^^^ (b &&& 0xFF)))
    0xFFFF) ^^^ 0xFFFF

/-- Modelled from the spec: AddCrc14B appends the CRC over the first len
bytes, little-endian (the CRC helper lives in common/crc16.c, not among the
sources; the spec says all CRCs are appended LE). -/
def AddCrc14B (data : List Nat) (len : Nat) : List Nat :=
  data.take len ++ [crc14b (data.take len) &&& 0xFF, crc14b (data.take len) >>> 8]

/-- Modelled from the spec: check_crc over a received frame (from
common/crc16.c, not among the sources): a frame of at least three bytes
whose last two bytes are the little-endian CRC of the rest. -/
def check_crc14b (d : List Nat) : Bool :=
  decide (3 ≤ d.length) &&
  (d.getD (d.length - 2) 0 == crc14b (d.take (d.length - 2)) &&& 0xFF) &&
  (d.getD (d.length - 1) 0 == crc14b (d.take (d.length - 2)) >>> 8)

/-- One data bit of a command byte as emitted by the encoder:
tosend_stuffbit((b >> i) & 1) (armsrc/iso14443b.c lines 1090-1097). -/
def bitOf (b i : Nat) : Bool := (b >>> i) &&& 1 == 1

/-- The ten stuffbits of one data octet: start bit 0, eight data bits LSB
first, stop bit 1 (armsrc/iso14443b.c lines 1084-1106). -/
def byteBits (b : Nat) : List Bool :=
  [false, bitOf b 0, bitOf b 1, bitOf b 2, bitOf b 3,
   bitOf b 4, bitOf b 5, bitOf b 6, bitOf b 7, true]

/-- CodeIso14443bAsReader (armsrc/iso14443b.c lines 1054-1126), at the
granularity of the emitted stuffbits: SOF = 10 zeros and 2 ones, each
octet as byteBits, EOF = 10 zeros, then 8 ones padding the final byte.
The ToSend byte-packing of the stuffbit buffer (common/util.c, not among
the sources) does not change which stuffbits are produced, so the buffer
is modelled as the ordered stuffbit sequence, per section 3 of the spec. -/
def CodeIso14443bAsReader (cmd : List Nat) : List Bool :=
  (List.replicate 10 false) ++ [true, true] ++
  cmd.flatMap byteBits ++
  (List.replicate 10 false) ++ (List.replicate 8 true)

/-- Four samples per ETU: each stuffbit of the reader-to-tag encoding is
seen four times by the tag-side UART (the UART is called 4 times per bit,
armsrc/iso14443b.c line 342). -/
def rep4 (bs : List Bool) : List Bool := bs.flatMap (fun b => List.replicate 4 b)

/-- The states of the tag-side software UART (armsrc/iso14443b.c
lines 236-241). -/
inductive UartState
  | UNSYNCD
  | GOT_FALLING_EDGE_OF_SOF
  | AWAITING_START_BIT
  | RECEIVING_DATA
deriving DecidableEq

/-- The tag-side UART state record (armsrc/iso14443b.c lines 235-248).
The output buffer is a function from byte index to stored value. -/
structure Uart14b where
  state : UartState
  shiftReg : Nat
  bitCnt : Nat
  byteCnt : Nat
  byteCntMax : Nat
  posCnt : Nat
  output : Nat → Nat

/-- Uart14bReset (armsrc/iso14443b.c lines 250-257). -/
def Uart14bReset (u : Uart14b) : Uart14b :=
  { u with state := .UNSYNCD, shiftReg := 0, bitCnt := 0, byteCnt := 0,
           byteCntMax := MAX_FRAME_SIZE, posCnt := 0 }

/-- Uart14bInit (armsrc/iso14443b.c lines 259-262). -/
def Uart14bInit (data : Nat → Nat) : Uart14b :=
  Uart14bReset { state := .UNSYNCD, shiftReg := 0, bitCnt := 0, byteCnt := 0,
                 byteCntMax := MAX_FRAME_SIZE, posCnt := 0, output := data }

/-- Handle14443bSampleFromReader (armsrc/iso14443b.c lines 352-472).
Returns the new UART state, the EOF flag (the C return value), and, when
the call stores a data byte into the output buffer, the store performed
as an (index, value) pair. -/
def Handle14443bSampleFromReader (u : Uart14b) (bit : Bool) :
    Uart14b × Bool × Option (Nat × Nat) :=
  match u.state with
  | .UNSYNCD =>
    if bit = false then
      ({ u with state := .GOT_FALLING_EDGE_OF_SOF, posCnt := 0, bitCnt := 0 }, false, none)
    else
      (u, false, none)
  | .GOT_FALLING_EDGE_OF_SOF =>
    let u := { u with posCnt := u.posCnt + 1 }
    let u :=
      if u.posCnt = 2 then
        if bit then
          if u.bitCnt > 9 then
            { u with posCnt := 0, byteCnt := 0, state := .AWAITING_START_BIT,
                     bitCnt := u.bitCnt + 1 }
          else
            { u with state := .UNSYNCD, bitCnt := u.bitCnt + 1 }
        else
          { u with bitCnt := u.bitCnt + 1 }
      else u
    let u := if u.posCnt ≥ 4 then { u with posCnt := 0 } else u
    let u := if u.bitCnt > 12 then { u with state := .UNSYNCD } else u
    (u, false, none)
  | .AWAITING_START_BIT =>
    let u := { u with posCnt := u.posCnt + 1 }
    if bit then
      if u.posCnt > 50 / 2 then ({ u with state := .UNSYNCD }, false, none)
      else (u, false, none)
    else
      ({ u with posCnt := 0, bitCnt := 0, shiftReg := 0, state := .RECEIVING_DATA },
       false, none)
  | .RECEIVING_DATA =>
    let u := { u with posCnt := u.posCnt + 1 }
    let u :=
      if u.posCnt = 2 then
        { u with shiftReg := if bit then (u.shiftReg >>> 1) ||| 0x200 else u.shiftReg >>> 1,
                 bitCnt := u.bitCnt + 1 }
      else u
    let u := if u.posCnt ≥ 4 then { u with posCnt := 0 } else u
    if u.bitCnt = 10 then
      if u.shiftReg &&& 0x200 ≠ 0 ∧ u.shiftReg &&& 0x001 = 0 then
        let v := (u.shiftReg >>> 1) &&& 0xFF
        let u2 := { u with output := Function.update u.output u.byteCnt v,
                           byteCnt := u.byteCnt + 1 }
        if u2.byteCnt ≥ u2.byteCntMax then
          ({ u2 with state := .UNSYNCD }, false, some (u.byteCnt, v))
        else
          ({ u2 with posCnt := 0, state := .AWAITING_START_BIT }, false, some (u.byteCnt, v))
      else if u.shiftReg = 0x000 then
        ({ u with state := .UNSYNCD }, decide (u.byteCnt ≠ 0), none)
      else
        ({ u with state := .UNSYNCD }, false, none)
    else
      (u, false, none)

/-- Iterated UART sampling, as performed by GetIso14443bCommandFromReader
(armsrc/iso14443b.c lines 483-507): feeds the samples in order and collects
(1) the final state, (2) for every sample on which the UART signalled EOF,
the pair of Uart.byteCnt and the output buffer at that moment, and (3) all
stores into the output buffer. -/
def uartRun (u : Uart14b) :
    List Bool → Uart14b × List (Nat × (Nat → Nat)) × List (Nat × Nat)
  | [] => (u, [], [])
  | b :: bs =>
    let r := Handle14443bSampleFromReader u b
    let rest := uartRun r.1 bs
    (rest.1,
     (if r.2.1 then (r.1.byteCnt, r.1.output) :: rest.2.1 else rest.2.1),
     (match r.2.2 with | some e => e :: rest.2.2 | none => rest.2.2))

/-- The states of the reader-side BPSK demodulator (armsrc/iso14443b.c
lines 272-279), in C enumeration order. -/
inductive DemodState
  | UNSYNCD
  | PHASE_REF_TRAINING
  | AWAITING_FALLING_EDGE_OF_SOF
  | GOT_FALLING_EDGE_OF_SOF
  | AWAITING_START_BIT
  | RECEIVING_DATA
deriving DecidableEq

/-- The C enumeration value of a demodulator state; the receive loop
compares states with the less-than of these values. -/
def DemodState.idx : DemodState → Nat
  | .UNSYNCD => 0
  | .PHASE_REF_TRAINING => 1
  | .AWAITING_FALLING_EDGE_OF_SOF => 2
  | .GOT_FALLING_EDGE_OF_SOF => 3
  | .AWAITING_START_BIT => 4
  | .RECEIVING_DATA => 5

/-- The reader-side demodulator state record (armsrc/iso14443b.c
lines 271-289). -/
structure Demod14b where
  state : DemodState
  bitCount : Nat
  posCount : Nat
  thisBit : Int
  shiftReg : Nat
  max_len : Nat
  output : Nat → Nat
  len : Nat
  sumI : Int
  sumQ : Int

/-- Demod14bInit followed by Demod14bReset (armsrc/iso14443b.c
lines 292-307). -/
def Demod14bInit (data : Nat → Nat) (max_len : Nat) : Demod14b :=
  { state := .UNSYNCD, bitCount := 0, posCount := 0, thisBit := 0, shiftReg := 0,
    max_len := max_len, output := data, len := 0, sumI := 0, sumQ := 0 }

/-- The AMPLITUDE macro (armsrc/iso14443b.c line 762); both arguments of
the integer division are nonnegative, so C truncation agrees with Int
division here. -/
def AMPLITUDE (ci cq : Int) : Int := max |ci| |cq| + (min |ci| |cq|) / 2

/-- Handle14443bSamplesFromTag (armsrc/iso14443b.c lines 741-895): one
(ci, cq) IQ sample pair.  Returns the new state and the EOF flag (the C
return value).  The soft decision v is the MAKE_SOFT_DECISION macro. -/
def Handle14443bSamplesFromTag (d : Demod14b) (ci cq : Int) : Demod14b × Bool :=
  let v : Int := (if d.sumI > 0 then ci else -ci) + (if d.sumQ > 0 then cq else -cq)
  match d.state with
  | .UNSYNCD =>
    if AMPLITUDE ci cq > 8 then
      ({ d with state := .PHASE_REF_TRAINING, sumI := ci, sumQ := cq, posCount := 1 },
       false)
    else (d, false)
  | .PHASE_REF_TRAINING =>
    if d.posCount < 8 then
      if AMPLITUDE ci cq > 8 then
        ({ d with sumI := d.sumI + ci, sumQ := d.sumQ + cq, posCount := d.posCount + 1 },
         false)
      else ({ d with state := .UNSYNCD }, false)
    else ({ d with state := .AWAITING_FALLING_EDGE_OF_SOF }, false)
  | .AWAITING_FALLING_EDGE_OF_SOF =>
    let d :=
      if v < 0 then { d with state := .GOT_FALLING_EDGE_OF_SOF, posCount := 0 }
      else if d.posCount > 200 / 4 then { d with state := .UNSYNCD } else d
    ({ d with posCount := d.posCount + 1 }, false)
  | .GOT_FALLING_EDGE_OF_SOF =>
    let d := { d with posCount := d.posCount + 1 }
    if v > 0 then
      if d.posCount < 9 * 2 then ({ d with state := .UNSYNCD }, false)
      else ({ d with posCount := 0, bitCount := 0, len := 0,
                     state := .AWAITING_START_BIT }, false)
    else
      if d.posCount > 14 * 2 then ({ d with state := .UNSYNCD }, false) else (d, false)
  | .AWAITING_START_BIT =>
    let d := { d with posCount := d.posCount + 1 }
    if v > 0 then
      if d.posCount > 6 * 2 then
        if d.bitCount = 0 ∧ d.len = 0 then (d, true)
        else ({ d with state := .UNSYNCD }, false)
      else (d, false)
    else
      ({ d with posCount := 1, thisBit := v, shiftReg := 0, state := .RECEIVING_DATA },
       false)
  | .RECEIVING_DATA =>
    if d.posCount = 0 then
      ({ d with thisBit := v, posCount := 1 }, false)
    else
      let d := { d with thisBit := d.thisBit + v }
      let d := { d with shiftReg :=
                   if d.thisBit > 0 then (d.shiftReg >>> 1) ||| 0x200 else d.shiftReg >>> 1 }
      let d := { d with bitCount := d.bitCount + 1 }
      if d.bitCount = 10 then
        let s := d.shiftReg
        if s &&& 0x200 ≠ 0 ∧ s &&& 0x001 = 0 then
          ({ d with output := Function.update d.output d.len ((s >>> 1) % 256),
                    len := d.len + 1, bitCount := 0, state := .AWAITING_START_BIT,
                    posCount := 0 }, false)
        else
          if s = 0x000 then ({ d with state := .UNSYNCD }, true)
          else ({ d with state := .UNSYNCD, posCount := 0 }, false)
      else ({ d with posCount := 0 }, false)

/-- Iterated demodulation up to the first sample on which the demodulator
signals EOF; returns the state just before and just after that sample.
This is the sample-processing skeleton shared by the reader receive
loops. -/
def demodRun (d : Demod14b) : List (Int × Int) → Option (Demod14b × Demod14b)
  | [] => none
  | (ci, cq) :: rest =>
    let r := Handle14443bSamplesFromTag d ci cq
    if r.2 then some (d, r.1) else demodRun r.1 rest

/-- The receive loop of Get14443bAnswerFromTag (armsrc/iso14443b.c
lines 927-1002), with the DMA ring replaced by an explicit sample list:
per pair the sample counter is incremented and the demodulator stepped;
on EOF the loop ends, returning -2 when Demod.len exceeds max_len and
Demod.len otherwise; with no EOF, once more than timeout pairs have been
consumed while the state is still below PHASE_REF_TRAINING the loop ends
with -1.  Exhausting the list without either event yields none (the C
loop would keep spinning on the DMA ring). -/
def Get14443bAnswerFromTag (d : Demod14b) (samples timeout : Nat) :
    List (Int × Int) → Option (Int × Demod14b)
  | [] => none
  | (ci, cq) :: rest =>
    let samples := samples + 1
    let r := Handle14443bSamplesFromTag d ci cq
    if r.2 then
      some (if r.1.len > r.1.max_len then (-2 : Int) else (r.1.len : Int), r.1)
    else if samples > timeout ∧ r.1.state.idx < DemodState.PHASE_REF_TRAINING.idx then
      some ((-1 : Int), r.1)
    else
      Get14443bAnswerFromTag r.1 samples timeout rest

/-- The card descriptor iso14b_card_select_t populated by selection. -/
structure Iso14bCard where
  uid : List Nat
  uidlen : Nat
  atqb : List Nat
  chipid : Nat
  cid : Nat

/-- The reader-session globals touched by selection and APDU exchange:
pcb_blocknum and iso14b_timeout (armsrc/iso14443b.c lines 79-80) and
Uart.byteCntMax as set by iso14b_set_maxframesize. -/
structure Iso14bSession where
  pcb_blocknum : Nat
  iso14b_timeout : Nat
  uartByteCntMax : Nat

/-- iso14443b_select_card (armsrc/iso14443b.c lines 1272-1355).  The two
tag responses are passed explicitly: retlen1 and r_pupid are the return
value and buffer of the ATQB exchange, retlen2 and r_attrib those of the
ATTRIB exchange.  Returns the status, the updated session globals and the
updated card descriptor. -/
def iso14443b_select_card (s : Iso14bSession) (card : Option Iso14bCard)
    (retlen1 : Int) (r_pupid : List Nat) (retlen2 : Int) (r_attrib : List Nat) :
    Int × Iso14bSession × Option Iso14bCard :=
  if retlen1 < 14 then (-1, s, card)
  else if ¬ check_crc14b (r_pupid.take retlen1.toNat) then (-2, s, card)
  else
    let card := card.map (fun c =>
      { c with uidlen := 4, uid := (r_pupid.drop 1).take 4,
               atqb := (r_pupid.drop 5).take 7 })
    if retlen2 < 3 then (-1, s, card)
    else if ¬ check_crc14b (r_attrib.take retlen2.toNat) then (-2, s, card)
    else
      let sc : Iso14bSession × Option Iso14bCard :=
        match card with
        | some c =>
          let c := { c with cid := r_attrib.getD 0 0 }
          let maxFrame0 := (c.atqb.getD 5 0) >>> 4
          let maxFrame :=
            if maxFrame0 < 5 then 8 * maxFrame0 + 16
            else if maxFrame0 = 5 then 64
            else if maxFrame0 = 6 then 96
            else if maxFrame0 = 7 then 128
            else if maxFrame0 = 8 then 256
            else 257
          let s := { s with uartByteCntMax := iso14b_set_maxframesize maxFrame }
          let fwt := (c.atqb.getD 6 0) >>> 4
          let s :=
            if fwt < 16 then { s with iso14b_timeout := iso14b_set_timeout (302 <<< fwt) }
            else s
          (s, some c)
        | none => (s, none)
      (0, { sc.1 with pcb_blocknum := 0 }, sc.2)

/-- iso14443b_apdu (armsrc/iso14443b.c lines 1142-1183).  The message
frame is PCB (0x0A with the current block number), CID 0x00, the message,
and the CRC; pcb_blocknum is toggled right after the PCB byte is placed.
The tag response is passed explicitly as hasResponse (response buffer
non-null), retlen and respBytes.  Returns the C return value (a uint8_t,
hence the reduction mod 256), the transmitted frame, and the updated
session. -/
def iso14443b_apdu (s : Iso14bSession) (message : List Nat)
    (hasResponse : Bool) (retlen : Int) (respBytes : List Nat) :
    Nat × List Nat × Iso14bSession :=
  let frame0 := (0x0A ||| s.pcb_blocknum) :: 0 :: message
  let frame := AddCrc14B frame0 (message.length + 2)
  let s := { s with pcb_blocknum := s.pcb_blocknum ^^^ 1 }
  if hasResponse = false then (0, frame, s)
  else if retlen < 3 then (0, frame, s)
  else if ¬ check_crc14b (respBytes.take retlen.toNat) then (0, frame, s)
  else (retlen.toNat % 256, frame, s)

/-- The protocol states of the simulated tag (SIM_NOFIELD .. SIM_WORK,
from armsrc/iso14443b.h; used by SimulateIso14443bTag). -/
inductive SimTagState
  | NOFIELD
  | IDLE
  | HALTED
  | SELECTING
  | HALTING
  | ACKNOWLEDGE
  | WORK
deriving DecidableEq

/-- The REQB/WUPB gate of the tag-emulation loop (armsrc/iso14443b.c
lines 631-640): on a 5-byte command the state moves to SELECTING when
either byte 0 is ISO14443B_REQB (0x05) with bit 0x08 of byte 2 set in the
HALTED state, or byte 0 is ISO14443B_REQB at all. -/
def sim14bReqbGate (state : SimTagState) (cmd : List Nat) : SimTagState :=
  if cmd.length = 5 ∧
     ((cmd.getD 0 0 = 0x05 ∧ cmd.getD 2 0 &&& 0x8 = 0x8 ∧ state = .HALTED) ∨
      cmd.getD 0 0 = 0x05) then
    .SELECTING
  else state

/-- Sequential writes into an output buffer: writeList out k M stores the
bytes of M at indices k, k+1, ... of out. -/
def writeList (out : Nat → Nat) (k : Nat) : List Nat → (Nat → Nat)
  | [] => out
  | b :: bs => writeList (Function.update out k b) (k + 1) bs

section SelectCardClaims

/-- Claim C10: whenever iso14443b_select_card returns a nonzero value, the
session globals pcb_blocknum, iso14b_timeout and the configured max frame
size (Uart.byteCntMax) retain the values they had at entry; they are
modified only on the success path that returns 0. -/
theorem C10_select_failure_preserves_session
    (s : Iso14bSession) (card : Option Iso14bCard) (ret1 : Int) (r1 : List Nat)
    (ret2 : Int) (r2 : List Nat) (r : Int) (s' : Iso14bSession)
    (card' : Option Iso14bCard)
    (hsel : iso14443b_select_card s card ret1 r1 ret2 r2 = (r, s', card'))
    (hr : r ≠ 0) :
    s'.pcb_blocknum = s.pcb_blocknum ∧ s'.iso14b_timeout = s.iso14b_timeout ∧
      s'.uartByteCntMax = s.uartByteCntMax := by
  unfold iso14443b_select_card at hsel
  split_ifs at hsel <;> simp only [Prod.mk.injEq] at hsel
  all_goals
    first
      | exact absurd hsel.1.symm hr
      | (obtain ⟨-, hs, -⟩ := hsel; subst hs; exact ⟨rfl, rfl, rfl⟩)

/-- Witness for C10: a concrete too-short ATQB exchange fails with -1 and
leaves the session untouched. -/
theorem C10_select_failure_preserves_session_witness :
    ({ pcb_blocknum := 1, iso14b_timeout := 77312,
       uartByteCntMax := 32 } : Iso14bSession).pcb_blocknum = 1 := by
  have h := C10_select_failure_preserves_session
    { pcb_blocknum := 1, iso14b_timeout := 77312, uartByteCntMax := 32 } none 0 [] 0 []
    (-1) { pcb_blocknum := 1, iso14b_timeout := 77312, uartByteCntMax := 32 } none
    rfl (by decide)
  exact h.1

end SelectCardClaims

/-- Shape of a successful selection: the card descriptor is populated with
the ATQB bytes 5..11 of the received frame, pcb_blocknum is reset, and the
session parameters are set from the ATQB nibbles exactly as the source
computes them. -/
lemma select_card_success_shape
    (s : Iso14bSession) (c0 : Iso14bCard) (ret1 : Int) (r1 : List Nat)
    (ret2 : Int) (r2 : List Nat) (s' : Iso14bSession) (card' : Option Iso14bCard)
    (hsel : iso14443b_select_card s (some c0) ret1 r1 ret2 r2 = (0, s', card')) :
    ∃ c', card' = some c' ∧ c'.atqb = (r1.drop 5).take 7 ∧
      s'.pcb_blocknum = 0 ∧
      s'.uartByteCntMax =
        iso14b_set_maxframesize
          (if (c'.atqb.getD 5 0) >>> 4 < 5 then 8 * ((c'.atqb.getD 5 0) >>> 4) + 16
           else if (c'.atqb.getD 5 0) >>> 4 = 5 then 64
           else if (c'.atqb.getD 5 0) >>> 4 = 6 then 96
           else if (c'.atqb.getD 5 0) >>> 4 = 7 then 128
           else if (c'.atqb.getD 5 0) >>> 4 = 8 then 256
           else 257) ∧
      s'.iso14b_timeout =
        (if (c'.atqb.getD 6 0) >>> 4 < 16 then
           iso14b_set_timeout (302 <<< ((c'.atqb.getD 6 0) >>> 4))
         else s.iso14b_timeout) := by
  unfold iso14443b_select_card at hsel
  split_ifs at hsel <;>
    simp only [Option.map_some', Prod.mk.injEq] at hsel
  all_goals
    first
      | exact absurd hsel.1 (by decide)
      | (obtain ⟨-, hs2, hc⟩ := hsel
         subst hs2
         subst hc
         refine ⟨_, rfl, rfl, rfl, ?_, ?_⟩ <;> (split <;> rfl))

/-- Claim C2: for every ATQB whose byte-6 high nibble is k with k ≤ 15, a
successful iso14443b_select_card given a non-null card descriptor sets
iso14b_timeout to 302 <<< k (the clamp at 40542464 never binds for such k);
for k ≥ 16 the timeout stays at the default 35312. -/
theorem C2_fwt_scaling
    (s : Iso14bSession) (c0 : Iso14bCard) (ret1 : Int) (r1 : List Nat)
    (ret2 : Int) (r2 : List Nat) (s' : Iso14bSession) (card' : Option Iso14bCard)
    (hdef : s.iso14b_timeout = FWT_TIMEOUT_14B)
    (hsel : iso14443b_select_card s (some c0) ret1 r1 ret2 r2 = (0, s', card')) :
    ∃ c', card' = some c' ∧
      ((c'.atqb.getD 6 0) >>> 4 < 16 →
        s'.iso14b_timeout = 302 <<< ((c'.atqb.getD 6 0) >>> 4)) ∧
      (16 ≤ (c'.atqb.getD 6 0) >>> 4 →
        s'.iso14b_timeout = FWT_TIMEOUT_14B) := by
  obtain ⟨c', hc, -, -, -, htmo⟩ :=
    select_card_success_shape s c0 ret1 r1 ret2 r2 s' card' hsel
  refine ⟨c', hc, ?_, ?_⟩
  · intro hk
    rw [htmo, if_pos hk]
    unfold iso14b_set_timeout
    have hle : ¬ (302 <<< ((c'.atqb.getD 6 0) >>> 4) > MAX_TIMEOUT) := by
      have h1 : 302 <<< ((c'.atqb.getD 6 0) >>> 4) ≤ 302 <<< 15 := by
        rw [Nat.shiftLeft_eq, Nat.shiftLeft_eq]
        exact Nat.mul_le_mul_left _ (Nat.pow_le_pow_right (by norm_num) (by omega))
      have h2 : (302 <<< 15 : Nat) ≤ MAX_TIMEOUT := by norm_num [Nat.shiftLeft_eq, MAX_TIMEOUT]
      omega
    rw [if_neg hle]
  · intro hk
    rw [htmo, if_neg (by omega), hdef]

/-- The 14-byte ATQB response hard-coded in SimulateIso14443bTag
(armsrc/iso14443b.c lines 548-554): frame-size nibble 2, FWI nibble 8. -/
def atqbResp : List Nat :=
  [0x50, 0x82, 0x0d, 0xe1, 0x74, 0x20, 0x38, 0x19, 0x22, 0x00, 0x21, 0x85, 0x5e, 0xd7]

/-- A 3-byte ATTRIB response with CID 0x01 and a valid CRC. -/
def attribResp : List Nat := [0x01, 0xF1, 0xE1]

/-- The session globals at their boot defaults (armsrc/iso14443b.c
lines 79-80, 255). -/
def sessionDefault : Iso14bSession :=
  { pcb_blocknum := 0, iso14b_timeout := FWT_TIMEOUT_14B, uartByteCntMax := MAX_FRAME_SIZE }

/-- An unpopulated card descriptor. -/
def cardEmpty : Iso14bCard := { uid := [], uidlen := 0, atqb := [], chipid := 0, cid := 0 }

set_option maxRecDepth 16000 in
/-- Witness for C2: the hard-coded ATQB (FWI nibble 8) selects successfully
and the theorem applies to it. -/
theorem C2_fwt_scaling_witness :
    ∃ c', (iso14443b_select_card sessionDefault (some cardEmpty) 14 atqbResp
             3 attribResp).2.2 = some c' ∧
      ((c'.atqb.getD 6 0) >>> 4 < 16 →
        (iso14443b_select_card sessionDefault (some cardEmpty) 14 atqbResp
           3 attribResp).2.1.iso14b_timeout = 302 <<< ((c'.atqb.getD 6 0) >>> 4)) ∧
      (16 ≤ (c'.atqb.getD 6 0) >>> 4 →
        (iso14443b_select_card sessionDefault (some cardEmpty) 14 atqbResp
           3 attribResp).2.1.iso14b_timeout = FWT_TIMEOUT_14B) :=
  C2_fwt_scaling sessionDefault cardEmpty 14 atqbResp 3 attribResp _ _ rfl rfl

/-- Claim C3: for every ATQB whose frame-size nibble is n, a successful
iso14443b_select_card given a non-null card descriptor sets the configured
max frame size to 8n+16 for n in 0..4, 64 for n = 5, 96 for n = 6, 128 for
n = 7, 256 for n = 8, and 257 for n in 9..15. -/
theorem C3_maxframe_decoding
    (s : Iso14bSession) (c0 : Iso14bCard) (ret1 : Int) (r1 : List Nat)
    (ret2 : Int) (r2 : List Nat) (s' : Iso14bSession) (card' : Option Iso14bCard)
    (hsel : iso14443b_select_card s (some c0) ret1 r1 ret2 r2 = (0, s', card')) :
    ∃ c', card' = some c' ∧
      ((c'.atqb.getD 5 0) >>> 4 < 5 →
        s'.uartByteCntMax = 8 * ((c'.atqb.getD 5 0) >>> 4) + 16) ∧
      ((c'.atqb.getD 5 0) >>> 4 = 5 → s'.uartByteCntMax = 64) ∧
      ((c'.atqb.getD 5 0) >>> 4 = 6 → s'.uartByteCntMax = 96) ∧
      ((c'.atqb.getD 5 0) >>> 4 = 7 → s'.uartByteCntMax = 128) ∧
      ((c'.atqb.getD 5 0) >>> 4 = 8 → s'.uartByteCntMax = 256) ∧
      (9 ≤ (c'.atqb.getD 5 0) >>> 4 → (c'.atqb.getD 5 0) >>> 4 ≤ 15 →
        s'.uartByteCntMax = 257) := by
  obtain ⟨c', hc, -, -, hmax, -⟩ :=
    select_card_success_shape s c0 ret1 r1 ret2 r2 s' card' hsel
  refine ⟨c', hc, ?_, ?_, ?_, ?_, ?_, ?_⟩
  · intro h
    rw [hmax, if_pos h]
    unfold iso14b_set_maxframesize
    rw [if_neg (by omega)]
  · intro h
    rw [hmax, if_neg (by omega), if_pos h]
    rfl
  · intro h
    rw [hmax, if_neg (by omega), if_neg (by omega), if_pos h]
    rfl
  · intro h
    rw [hmax, if_neg (by omega), if_neg (by omega), if_neg (by omega), if_pos h]
    rfl
  · intro h
    rw [hmax, if_neg (by omega), if_neg (by omega), if_neg (by omega),
        if_neg (by omega), if_pos h]
    rfl
  · intro h9 h15
    rw [hmax, if_neg (by omega), if_neg (by omega), if_neg (by omega),
        if_neg (by omega), if_neg (by omega)]
    rfl

set_option maxRecDepth 16000 in
/-- Witness for C3: the hard-coded ATQB (frame-size nibble 2) selects
successfully and the theorem applies to it. -/
theorem C3_maxframe_decoding_witness :
    ∃ c', (iso14443b_select_card sessionDefault (some cardEmpty) 14 atqbResp
             3 attribResp).2.2 = some c' ∧
      ((c'.atqb.getD 5 0) >>> 4 < 5 →
        (iso14443b_select_card sessionDefault (some cardEmpty) 14 atqbResp
           3 attribResp).2.1.uartByteCntMax = 8 * ((c'.atqb.getD 5 0) >>> 4) + 16) ∧
      ((c'.atqb.getD 5 0) >>> 4 = 5 →
        (iso14443b_select_card sessionDefault (some cardEmpty) 14 atqbResp
           3 attribResp).2.1.uartByteCntMax = 64) ∧
      ((c'.atqb.getD 5 0) >>> 4 = 6 →
        (iso14443b_select_card sessionDefault (some cardEmpty) 14 atqbResp
           3 attribResp).2.1.uartByteCntMax = 96) ∧
      ((c'.atqb.getD 5 0) >>> 4 = 7 →
        (iso14443b_select_card sessionDefault (some cardEmpty) 14 atqbResp
           3 attribResp).2.1.uartByteCntMax = 128) ∧
      ((c'.atqb.getD 5 0) >>> 4 = 8 →
        (iso14443b_select_card sessionDefault (some cardEmpty) 14 atqbResp
           3 attribResp).2.1.uartByteCntMax = 256) ∧
      (9 ≤ (c'.atqb.getD 5 0) >>> 4 → (c'.atqb.getD 5 0) >>> 4 ≤ 15 →
        (iso14443b_select_card sessionDefault (some cardEmpty) 14 atqbResp
           3 attribResp).2.1.uartByteCntMax = 257) :=
  C3_maxframe_decoding sessionDefault cardEmpty 14 atqbResp 3 attribResp _ _ rfl

/-- The session part of an APDU exchange: pcb_blocknum is toggled exactly
once, on every call, regardless of the response. -/
lemma iso14443b_apdu_session (s : Iso14bSession) (message : List Nat)
    (hasResponse : Bool) (retlen : Int) (respBytes : List Nat) :
    (iso14443b_apdu s message hasResponse retlen respBytes).2.2 =
      { s with pcb_blocknum := s.pcb_blocknum ^^^ 1 } := by
  unfold iso14443b_apdu
  split_ifs <;> rfl

/-- The transmitted frame of an APDU exchange. -/
lemma iso14443b_apdu_frame (s : Iso14bSession) (message : List Nat)
    (hasResponse : Bool) (retlen : Int) (respBytes : List Nat) :
    (iso14443b_apdu s message hasResponse retlen respBytes).2.1 =
      AddCrc14B ((0x0A ||| s.pcb_blocknum) :: 0 :: message) (message.length + 2) := by
  unfold iso14443b_apdu
  split_ifs <;> rfl

/-- The head of an APDU frame is the PCB byte. -/
lemma iso14443b_apdu_frame_head (s : Iso14bSession) (message : List Nat)
    (hasResponse : Bool) (retlen : Int) (respBytes : List Nat) :
    (iso14443b_apdu s message hasResponse retlen respBytes).2.1.headD 0 =
      0x0A ||| s.pcb_blocknum := by
  rw [iso14443b_apdu_frame]
  unfold AddCrc14B
  rfl

/-- Claim C4: pcb_blocknum toggles exactly once per iso14443b_apdu
exchange, regardless of reply validity; the transmitted PCB byte equals
0x0A OR-ed with the pre-toggle pcb_blocknum, so two consecutive exchanges
transmit PCB bytes that differ in bit 0 and agree on all other bits. -/
theorem C4_pcb_toggle
    (s : Iso14bSession) (m1 m2 : List Nat) (h1 h2 : Bool) (r1 r2 : Int)
    (b1 b2 : List Nat) (hpcb : s.pcb_blocknum < 2) :
    (iso14443b_apdu s m1 h1 r1 b1).2.2.pcb_blocknum = s.pcb_blocknum ^^^ 1 ∧
    (iso14443b_apdu (iso14443b_apdu s m1 h1 r1 b1).2.2 m2 h2 r2 b2).2.2.pcb_blocknum
      = (iso14443b_apdu s m1 h1 r1 b1).2.2.pcb_blocknum ^^^ 1 ∧
    (iso14443b_apdu s m1 h1 r1 b1).2.1.headD 0 = 0x0A ||| s.pcb_blocknum ∧
    (iso14443b_apdu (iso14443b_apdu s m1 h1 r1 b1).2.2 m2 h2 r2 b2).2.1.headD 0
      = 0x0A ||| (iso14443b_apdu s m1 h1 r1 b1).2.2.pcb_blocknum ∧
    ((iso14443b_apdu s m1 h1 r1 b1).2.1.headD 0) ^^^
      ((iso14443b_apdu (iso14443b_apdu s m1 h1 r1 b1).2.2 m2 h2 r2 b2).2.1.headD 0)
      = 1 := by
  refine ⟨?_, ?_, ?_, ?_, ?_⟩
  · rw [iso14443b_apdu_session]
  · rw [iso14443b_apdu_session]
  · rw [iso14443b_apdu_frame_head]
  · rw [iso14443b_apdu_frame_head]
  · rw [iso14443b_apdu_frame_head, iso14443b_apdu_frame_head, iso14443b_apdu_session]
    have hproj : ({ s with pcb_blocknum := s.pcb_blocknum ^^^ 1 } :
        Iso14bSession).pcb_blocknum = s.pcb_blocknum ^^^ 1 := rfl
    rw [hproj]
    interval_cases h : s.pcb_blocknum <;> decide

/-- Witness for C4: two concrete APDU exchanges from a freshly selected
session (pcb_blocknum 0) transmit PCBs 0x0A then 0x0B. -/
theorem C4_pcb_toggle_witness :
    (iso14443b_apdu sessionDefault [0x90, 0x00] false 0 []).2.2.pcb_blocknum
      = sessionDefault.pcb_blocknum ^^^ 1 ∧
    (iso14443b_apdu (iso14443b_apdu sessionDefault [0x90, 0x00] false 0 []).2.2
        [0x90, 0x00] false 0 []).2.2.pcb_blocknum
      = (iso14443b_apdu sessionDefault [0x90, 0x00] false 0 []).2.2.pcb_blocknum ^^^ 1 ∧
    (iso14443b_apdu sessionDefault [0x90, 0x00] false 0 []).2.1.headD 0
      = 0x0A ||| sessionDefault.pcb_blocknum ∧
    (iso14443b_apdu (iso14443b_apdu sessionDefault [0x90, 0x00] false 0 []).2.2
        [0x90, 0x00] false 0 []).2.1.headD 0
      = 0x0A |||
        (iso14443b_apdu sessionDefault [0x90, 0x00] false 0 []).2.2.pcb_blocknum ∧
    ((iso14443b_apdu sessionDefault [0x90, 0x00] false 0 []).2.1.headD 0) ^^^
      ((iso14443b_apdu (iso14443b_apdu sessionDefault [0x90, 0x00] false 0 []).2.2
          [0x90, 0x00] false 0 []).2.1.headD 0) = 1 :=
  C4_pcb_toggle sessionDefault [0x90, 0x00] [0x90, 0x00] false false 0 0 [] []
    (by decide)

/-- Claim C5 records a code bug: in the Halted state a 5-byte command with
byte 0 = 0x05 and bit 0x08 of byte 2 clear is claimed to be ignored, but
the second disjunct of the source condition (armsrc/iso14443b.c line 636)
fires on byte 0 alone, so the gate moves to SELECTING anyway; the
AFI-bit test of the first disjunct is dead code. -/
theorem C5_halted_reqb_gate_bug :
    sim14bReqbGate .HALTED [0x05, 0x00, 0x00, 0x71, 0xFF] = .SELECTING ∧
    sim14bReqbGate .HALTED [0x05, 0x00, 0x08, 0x39, 0x73] = .SELECTING := by
  constructor <;> rfl

/-- The IQ sample sequence of a BPSK frame consisting of an SOF followed
immediately by an EOF character (ten all-zero bits): 9 strong in-phase
samples for training, a falling edge, 17 low samples (SOF low phase), a
rising edge, then 20 low samples forming ten zero bits. -/
def c6rest : List (Int × Int) :=
  List.replicate 8 ((20 : Int), (0 : Int)) ++ [(-20, 0)] ++
  List.replicate 17 ((-20 : Int), (0 : Int)) ++ [(20, 0)] ++
  List.replicate 20 ((-20 : Int), (0 : Int))

/-- The full sequence: first training sample plus the rest. -/
def c6seq : List (Int × Int) := ((20 : Int), (0 : Int)) :: c6rest

set_option maxRecDepth 40000 in
/-- Counterexample to claim C6 as stated: there is a sample sequence (an
SOF followed directly by ten zero bits) on which the demodulator returns
true with len = 0 from the ReceivingData state, not from
AwaitingStartBit. -/
theorem C6_counterexample_immediate_eof :
    ¬ (∀ (inp : List (Int × Int)) (out : Nat → Nat) (ml : Nat)
         (p : Demod14b × Demod14b),
        demodRun (Demod14bInit out ml) inp = some p → p.2.len = 0 →
        p.1.state = DemodState.AWAITING_START_BIT) := by
  intro h
  obtain ⟨p, hp, hlen, hstate⟩ :
      ∃ p, demodRun (Demod14bInit (fun _ => 0) 24) c6seq = some p ∧
        p.2.len = 0 ∧ p.1.state = DemodState.RECEIVING_DATA := ⟨_, rfl, rfl, rfl⟩
  have hASB := h c6seq (fun _ => 0) 24 p hp hlen
  rw [hstate] at hASB
  exact absurd hASB (by decide)

/-- Claim C6, amended: the demodulator returns true with len = 0 only
(a) from AwaitingStartBit when the start-bit wait exceeds its limit
directly after the SOF (bitCount = 0 and len = 0, the SOF-only frame), or
(b) from ReceivingData when the ten bits of the first character after the
SOF are all zero (an EOF character arriving while len is still 0); it
never returns true with len = 0 from any other state. -/
theorem C6_eof_only_acceptance_amended
    (d : Demod14b) (ci cq : Int)
    (heof : (Handle14443bSamplesFromTag d ci cq).2 = true)
    (hlen : (Handle14443bSamplesFromTag d ci cq).1.len = 0) :
    (d.state = DemodState.AWAITING_START_BIT ∧ d.bitCount = 0 ∧ d.len = 0) ∨
    (d.state = DemodState.RECEIVING_DATA ∧ d.len = 0) := by
  obtain ⟨st, bc, pc, tb, sr, ml, out, len, sI, sQ⟩ := d
  cases st <;>
    simp only [Handle14443bSamplesFromTag] at heof hlen ⊢ <;>
    split_ifs at heof hlen <;>
    simp_all

/-- Witness for the amended C6: a concrete SOF-only timeout in
AwaitingStartBit returns true with len = 0. -/
theorem C6_eof_only_acceptance_amended_witness :
    ({ state := .AWAITING_START_BIT, bitCount := 0, posCount := 12, thisBit := 0,
       shiftReg := 0, max_len := 24, output := fun _ => 0, len := 0, sumI := 20,
       sumQ := 0 } : Demod14b).state = DemodState.AWAITING_START_BIT ∧
      ({ state := .AWAITING_START_BIT, bitCount := 0, posCount := 12, thisBit := 0,
         shiftReg := 0, max_len := 24, output := fun _ => 0, len := 0, sumI := 20,
         sumQ := 0 } : Demod14b).bitCount = 0 ∧
      ({ state := .AWAITING_START_BIT, bitCount := 0, posCount := 12, thisBit := 0,
         shiftReg := 0, max_len := 24, output := fun _ => 0, len := 0, sumI := 20,
         sumQ := 0 } : Demod14b).len = 0 := by
  have h := C6_eof_only_acceptance_amended
    { state := .AWAITING_START_BIT, bitCount := 0, posCount := 12, thisBit := 0,
      shiftReg := 0, max_len := 24, output := fun _ => 0, len := 0, sumI := 20,
      sumQ := 0 } 20 0 rfl rfl
  rcases h with h | h
  · exact ⟨h.1, h.2.1, h.2.2⟩
  · exact absurd h.1 (by decide)

set_option maxRecDepth 40000 in
/-- Counterexample to claim C7 as stated: the abort test of the receive
loop (armsrc/iso14443b.c line 982) is state < DEMOD_PHASE_REF_TRAINING,
so a demodulator sitting in PhaseRefTraining past the timeout is NOT
aborted with -1; on the concrete sequence c6seq with timeout 0 the state
is PhaseRefTraining after the first pair (1 > 0 pairs consumed), yet the
loop keeps running and returns 0. -/
theorem C7_counterexample_training_not_aborted :
    ¬ (∀ (d : Demod14b) (smp t : Nat) (ci cq : Int) (rest : List (Int × Int)),
        (Handle14443bSamplesFromTag d ci cq).2 = false →
        smp + 1 > t →
        (Handle14443bSamplesFromTag d ci cq).1.state.idx ≤
          DemodState.PHASE_REF_TRAINING.idx →
        Get14443bAnswerFromTag d smp t ((ci, cq) :: rest) =
          some (-1, (Handle14443bSamplesFromTag d ci cq).1)) := by
  intro h
  have h1 := h (Demod14bInit (fun _ => 0) 24) 0 0 20 0 c6rest rfl (by decide) (by decide)
  have h2 : (Get14443bAnswerFromTag (Demod14bInit (fun _ => 0) 24) 0 0
      (((20 : Int), (0 : Int)) :: c6rest)).map Prod.fst = some 0 := rfl
  rw [h1] at h2
  exact absurd h2 (by decide)

/-- Claim C7, amended: in the receive loop, whenever a sample pair leaves
the demodulator in the Unsynced state (not Unsynced-or-PhaseRefTraining)
without an EOF while more than timeout pairs have been consumed, the loop
aborts at that pair and returns -1. -/
theorem C7_timeout_abort_amended
    (d : Demod14b) (smp t : Nat) (ci cq : Int) (rest : List (Int × Int))
    (heof : (Handle14443bSamplesFromTag d ci cq).2 = false)
    (htime : smp + 1 > t)
    (hstate : (Handle14443bSamplesFromTag d ci cq).1.state = DemodState.UNSYNCD) :
    Get14443bAnswerFromTag d smp t ((ci, cq) :: rest) =
      some (-1, (Handle14443bSamplesFromTag d ci cq).1) := by
  simp only [Get14443bAnswerFromTag, heof, Bool.false_eq_true, if_false]
  rw [if_pos]
  exact ⟨htime, by rw [hstate]; decide⟩

/-- Witness for the amended C7: from a fresh demodulator a sub-threshold
sample with timeout 0 aborts immediately with -1. -/
theorem C7_timeout_abort_amended_witness :
    Get14443bAnswerFromTag (Demod14bInit (fun _ => 0) 24) 0 0 [((0 : Int), (0 : Int))] =
      some (-1, (Handle14443bSamplesFromTag (Demod14bInit (fun _ => 0) 24) 0 0).1) :=
  C7_timeout_abort_amended (Demod14bInit (fun _ => 0) 24) 0 0 0 0 [] rfl (by decide) rfl

/-- Claim C8: when the demodulator signals EOF on a sample pair and the
decoded byte count Demod.len exceeds max_len, the receive loop returns -2,
and it does so only then: the abort happens after the EOF has been fully
decoded, the returned state being the post-EOF demodulator state whose
byte count is final; conversely every -2 return has len > max_len in its
final state. -/
theorem C8_overflow_abort
    : (∀ (d : Demod14b) (smp t : Nat) (ci cq : Int) (rest : List (Int × Int)),
        (Handle14443bSamplesFromTag d ci cq).2 = true →
        (Handle14443bSamplesFromTag d ci cq).1.len >
          (Handle14443bSamplesFromTag d ci cq).1.max_len →
        Get14443bAnswerFromTag d smp t ((ci, cq) :: rest) =
          some (-2, (Handle14443bSamplesFromTag d ci cq).1)) ∧
      (∀ (d : Demod14b) (smp t : Nat) (inp : List (Int × Int)) (r : Int)
         (d' : Demod14b),
        Get14443bAnswerFromTag d smp t inp = some (r, d') → r = -2 →
        d'.len > d'.max_len) := by
  constructor
  · intro d smp t ci cq rest heof hover
    simp only [Get14443bAnswerFromTag, heof, if_true]
    rw [if_pos hover]
  · intro d smp t inp
    induction inp generalizing d smp with
    | nil => intro r d' h; exact absurd h (by simp [Get14443bAnswerFromTag])
    | cons p rest ih =>
      intro r d' h hr
      obtain ⟨ci, cq⟩ := p
      rw [Get14443bAnswerFromTag] at h
      split_ifs at h with h1 h2 h3
      · simp only [Option.some.injEq, Prod.mk.injEq] at h
        obtain ⟨-, hd⟩ := h
        subst hd
        exact h2
      · simp only [Option.some.injEq, Prod.mk.injEq] at h
        obtain ⟨hval, -⟩ := h
        omega
      · simp only [Option.some.injEq, Prod.mk.injEq] at h
        obtain ⟨hval, -⟩ := h
        omega
      · exact ih _ _ _ _ h hr

/-- Witness for C8: a concrete demodulator state one bit short of an EOF
with len already past max_len; the next sample completes the EOF and the
loop returns -2. -/
theorem C8_overflow_abort_witness :
    Get14443bAnswerFromTag
      { state := .RECEIVING_DATA, bitCount := 9, posCount := 1, thisBit := -5,
        shiftReg := 0, max_len := 0, output := fun _ => 0, len := 1, sumI := 20,
        sumQ := 0 } 0 1700 [((-20 : Int), (0 : Int))] =
      some (-2, (Handle14443bSamplesFromTag
        { state := .RECEIVING_DATA, bitCount := 9, posCount := 1, thisBit := -5,
          shiftReg := 0, max_len := 0, output := fun _ => 0, len := 1, sumI := 20,
          sumQ := 0 } (-20) 0).1) :=
  C8_overflow_abort.1
    { state := .RECEIVING_DATA, bitCount := 9, posCount := 1, thisBit := -5,
      shiftReg := 0, max_len := 0, output := fun _ => 0, len := 1, sumI := 20,
      sumQ := 0 } 0 1700 (-20) 0 [] rfl (by decide)

/-- The shift-register update of the UART data sampler: shift right, then
OR in 0x200 when the sampled bit is one (armsrc/iso14443b.c
lines 424-427). -/
def shiftIn (sr : Nat) (t : Bool) : Nat :=
  if t then (sr >>> 1) ||| 0x200 else sr >>> 1

/-- Running the UART over a concatenation composes the two runs and
concatenates their frame and store logs. -/
lemma uartRun_append (u : Uart14b) (xs ys : List Bool) :
    uartRun u (xs ++ ys) =
      ((uartRun (uartRun u xs).1 ys).1,
       (uartRun u xs).2.1 ++ (uartRun (uartRun u xs).1 ys).2.1,
       (uartRun u xs).2.2 ++ (uartRun (uartRun u xs).1 ys).2.2) := by
  induction xs generalizing u with
  | nil => rfl
  | cons b bs ih =>
    simp only [List.cons_append, uartRun, List.append_eq]
    rw [ih]
    rcases hr : Handle14443bSampleFromReader u b with ⟨u', e, st⟩
    cases e <;> cases st <;> simp

/-- Concrete composition form of uartRun_append. -/
lemma steps_append {u u1 u2 : Uart14b} {xs ys : List Bool}
    {f1 f2 : List (Nat × (Nat → Nat))} {s1 s2 : List (Nat × Nat)}
    (hx : uartRun u xs = (u1, f1, s1)) (hy : uartRun u1 ys = (u2, f2, s2)) :
    uartRun u (xs ++ ys) = (u2, f1 ++ f2, s1 ++ s2) := by
  rw [uartRun_append, hx, hy]

set_option maxRecDepth 10000 in
set_option maxHeartbeats 1000000 in
/-- Feeding the encoded SOF (ten zeros, two ones, four samples each) to a
freshly reset UART leaves it awaiting the first start bit. -/
lemma run_sof (maxc : Nat) (out : Nat → Nat) :
    uartRun { state := .UNSYNCD, shiftReg := 0, bitCnt := 0, byteCnt := 0,
              byteCntMax := maxc, posCnt := 0, output := out }
      (rep4 (List.replicate 10 false ++ [true, true])) =
      ({ state := .AWAITING_START_BIT, shiftReg := 0, bitCnt := 11, byteCnt := 0,
         byteCntMax := maxc, posCnt := 5, output := out }, [], []) := by
  simp [uartRun, Handle14443bSampleFromReader, rep4]

/-- Four samples of a start bit from AwaitingStartBit: the UART enters
ReceivingData and samples the start bit in the middle of the second
sample. -/
lemma run_start_bit (sr bc k maxc p : Nat) (out : Nat → Nat) :
    uartRun { state := .AWAITING_START_BIT, shiftReg := sr, bitCnt := bc,
              byteCnt := k, byteCntMax := maxc, posCnt := p, output := out }
      [false, false, false, false] =
      ({ state := .RECEIVING_DATA, shiftReg := 0, bitCnt := 1, byteCnt := k,
         byteCntMax := maxc, posCnt := 3, output := out }, [], []) := by
  simp [uartRun, Handle14443bSampleFromReader]

/-- Four samples of one data bit in mid-frame (posCnt 3, next sample two
calls away): the bit is shifted into the register. -/
lemma run_data_bit (t : Bool) (sr bc k maxc : Nat) (out : Nat → Nat)
    (hbc0 : bc ≠ 10) (hbc : bc + 1 ≠ 10) :
    uartRun { state := .RECEIVING_DATA, shiftReg := sr, bitCnt := bc,
              byteCnt := k, byteCntMax := maxc, posCnt := 3, output := out }
      [t, t, t, t] =
      ({ state := .RECEIVING_DATA, shiftReg := shiftIn sr t, bitCnt := bc + 1,
         byteCnt := k, byteCntMax := maxc, posCnt := 3, output := out },
       [], []) := by
  simp [uartRun, Handle14443bSampleFromReader, shiftIn, hbc0, hbc]

/-- A run of data bits in mid-frame folds them into the shift register. -/
lemma run_data_bits (ts : List Bool) (sr bc k maxc : Nat) (out : Nat → Nat)
    (hbc : bc + ts.length ≤ 9) :
    uartRun { state := .RECEIVING_DATA, shiftReg := sr, bitCnt := bc,
              byteCnt := k, byteCntMax := maxc, posCnt := 3, output := out }
      (rep4 ts) =
      ({ state := .RECEIVING_DATA, shiftReg := ts.foldl shiftIn sr,
         bitCnt := bc + ts.length, byteCnt := k, byteCntMax := maxc,
         posCnt := 3, output := out }, [], []) := by
  induction ts generalizing sr bc with
  | nil => simp [uartRun, rep4]
  | cons t ts ih =>
    have e : rep4 (t :: ts) = [t, t, t, t] ++ rep4 ts := rfl
    rw [e]
    have h2 := steps_append
      (run_data_bit t sr bc k maxc out (by simp at hbc; omega) (by simp at hbc; omega))
      (ih (shiftIn sr t) (bc + 1) (by simp at hbc ⊢; omega))
    simp only [List.nil_append] at h2
    rw [h2]
    simp only [List.foldl_cons, List.length_cons]
    congr 2
    omega

/-- Four samples of the stop bit closing a data byte: the tenth bit
completes the character, the byte is stored at index byteCnt, and (below
byteCntMax) the UART returns to AwaitingStartBit mid-stop-bit. -/
lemma run_stop_bit (sr0 k maxc : Nat) (out : Nat → Nat)
    (h1 : ((sr0 >>> 1) ||| 0x200) &&& 0x200 ≠ 0)
    (h2 : ((sr0 >>> 1) ||| 0x200) &&& 0x001 = 0)
    (hk : k + 1 < maxc) :
    uartRun { state := .RECEIVING_DATA, shiftReg := sr0, bitCnt := 9,
              byteCnt := k, byteCntMax := maxc, posCnt := 3, output := out }
      [true, true, true, true] =
      ({ state := .AWAITING_START_BIT, shiftReg := (sr0 >>> 1) ||| 0x200,
         bitCnt := 10, byteCnt := k + 1, byteCntMax := maxc, posCnt := 1,
         output := Function.update out k ((((sr0 >>> 1) ||| 0x200) >>> 1) &&& 0xFF) },
       [], [(k, (((sr0 >>> 1) ||| 0x200) >>> 1) &&& 0xFF)]) := by
  have hk' : ¬ (k + 1 ≥ maxc) := by omega
  simp [uartRun, Handle14443bSampleFromReader, h1, h2, hk']

/-- Four samples of a tenth zero bit: the all-zero character is an EOF;
with a nonzero byte count the UART signals it, records the frame, and the
last sample starts a spurious falling-edge hunt. -/
lemma run_eof_bit (k maxc : Nat) (out : Nat → Nat) (hk : k ≠ 0) :
    uartRun { state := .RECEIVING_DATA, shiftReg := 0, bitCnt := 9,
              byteCnt := k, byteCntMax := maxc, posCnt := 3, output := out }
      [false, false, false, false] =
      ({ state := .GOT_FALLING_EDGE_OF_SOF, shiftReg := 0, bitCnt := 0,
         byteCnt := k, byteCntMax := maxc, posCnt := 0, output := out },
       [(k, out)], []) := by
  simp [uartRun, Handle14443bSampleFromReader, hk]

/-- One high sample in Unsynced is ignored. -/
lemma run_one_high_unsyncd (sr bc k maxc p : Nat) (out : Nat → Nat) :
    uartRun { state := .UNSYNCD, shiftReg := sr, bitCnt := bc, byteCnt := k,
              byteCntMax := maxc, posCnt := p, output := out } [true] =
      ({ state := .UNSYNCD, shiftReg := sr, bitCnt := bc, byteCnt := k,
         byteCntMax := maxc, posCnt := p, output := out }, [], []) := by
  simp [uartRun, Handle14443bSampleFromReader]

/-- Two high samples kill a falling-edge hunt whose zero run was too
short (the second sample is the mid-bit decision point). -/
lemma run_two_high_gotsof (k maxc : Nat) (out : Nat → Nat) :
    uartRun { state := .GOT_FALLING_EDGE_OF_SOF, shiftReg := 0, bitCnt := 0,
              byteCnt := k, byteCntMax := maxc, posCnt := 0, output := out }
      [true, true] =
      ({ state := .UNSYNCD, shiftReg := 0, bitCnt := 1, byteCnt := k,
         byteCntMax := maxc, posCnt := 2, output := out }, [], []) := by
  simp [uartRun, Handle14443bSampleFromReader]

/-- In Unsynced, high samples are ignored. -/
lemma run_unsyncd_ones (n : Nat) (sr bc k maxc p : Nat) (out : Nat → Nat) :
    uartRun { state := .UNSYNCD, shiftReg := sr, bitCnt := bc, byteCnt := k,
              byteCntMax := maxc, posCnt := p, output := out }
      (List.replicate n true) =
      ({ state := .UNSYNCD, shiftReg := sr, bitCnt := bc, byteCnt := k,
         byteCntMax := maxc, posCnt := p, output := out }, [], []) := by
  induction n with
  | zero => rfl
  | succ n ih =>
    rw [List.replicate_succ]
    have e : (true :: List.replicate n true : List Bool) =
        [true] ++ List.replicate n true := rfl
    rw [e]
    exact steps_append (run_one_high_unsyncd sr bc k maxc p out) ih

/-- The trailing one-fill after a frame: the spurious falling-edge hunt
started by the last EOF sample dies on the second high sample and the
UART stays Unsynced for the rest. -/
lemma run_tail_ones (k maxc : Nat) (out : Nat → Nat) :
    uartRun { state := .GOT_FALLING_EDGE_OF_SOF, shiftReg := 0, bitCnt := 0,
              byteCnt := k, byteCntMax := maxc, posCnt := 0, output := out }
      (List.replicate 32 true) =
      ({ state := .UNSYNCD, shiftReg := 0, bitCnt := 1, byteCnt := k,
         byteCntMax := maxc, posCnt := 2, output := out }, [], []) := by
  have e : (List.replicate 32 true : List Bool) =
      [true, true] ++ List.replicate 30 true := rfl
  rw [e]
  exact steps_append (run_two_high_gotsof k maxc out)
    (run_unsyncd_ones 30 0 1 k maxc 2 out)

set_option maxRecDepth 10000 in
/-- Kernel-checked facts about the shift register of one encoded octet:
folding the start bit and the eight data bits of an octet below 256 gives
four times the octet, and completing it with the stop bit gives a
register that passes the start/stop test and stores back the octet. -/
lemma byte_register_facts : ∀ x : Fin 256,
    List.foldl shiftIn 0
      [false, bitOf x.val 0, bitOf x.val 1, bitOf x.val 2, bitOf x.val 3,
       bitOf x.val 4, bitOf x.val 5, bitOf x.val 6, bitOf x.val 7] = 4 * x.val ∧
    ((4 * x.val) >>> 1 ||| 0x200 = 512 + 2 * x.val) ∧
    ((512 + 2 * x.val) &&& 0x200 ≠ 0) ∧
    ((512 + 2 * x.val) &&& 0x001 = 0) ∧
    (((512 + 2 * x.val) >>> 1) &&& 0xFF = x.val) := by decide

/-- byte_register_facts lifted to naturals below 256. -/
lemma byte_register_facts_nat (b : Nat) (hb : b < 256) :
    List.foldl shiftIn 0
      [false, bitOf b 0, bitOf b 1, bitOf b 2, bitOf b 3,
       bitOf b 4, bitOf b 5, bitOf b 6, bitOf b 7] = 4 * b ∧
    ((4 * b) >>> 1 ||| 0x200 = 512 + 2 * b) ∧
    ((512 + 2 * b) &&& 0x200 ≠ 0) ∧
    ((512 + 2 * b) &&& 0x001 = 0) ∧
    (((512 + 2 * b) >>> 1) &&& 0xFF = b) := byte_register_facts ⟨b, hb⟩

/-- One full encoded octet from AwaitingStartBit: the byte is stored at
index byteCnt and the UART waits for the next start bit. -/
lemma run_one_byte (b : Nat) (hb : b < 256) (sr bc k maxc p : Nat)
    (out : Nat → Nat) (hk : k + 1 < maxc) :
    uartRun { state := .AWAITING_START_BIT, shiftReg := sr, bitCnt := bc,
              byteCnt := k, byteCntMax := maxc, posCnt := p, output := out }
      (rep4 (byteBits b)) =
      ({ state := .AWAITING_START_BIT, shiftReg := 512 + 2 * b, bitCnt := 10,
         byteCnt := k + 1, byteCntMax := maxc, posCnt := 1,
         output := Function.update out k b }, [], [(k, b)]) := by
  obtain ⟨hfold, hA, hB, hC, hD⟩ := byte_register_facts_nat b hb
  have e : rep4 (byteBits b) =
      ([false, false, false, false] ++
        rep4 [bitOf b 0, bitOf b 1, bitOf b 2, bitOf b 3,
              bitOf b 4, bitOf b 5, bitOf b 6, bitOf b 7]) ++
      [true, true, true, true] := rfl
  have hpre : uartRun
      { state := .AWAITING_START_BIT, shiftReg := sr, bitCnt := bc,
        byteCnt := k, byteCntMax := maxc, posCnt := p, output := out }
      ([false, false, false, false] ++
        rep4 [bitOf b 0, bitOf b 1, bitOf b 2, bitOf b 3,
              bitOf b 4, bitOf b 5, bitOf b 6, bitOf b 7]) =
      ({ state := .RECEIVING_DATA, shiftReg := 4 * b, bitCnt := 9,
         byteCnt := k, byteCntMax := maxc, posCnt := 3, output := out },
       [], []) := by
    have h2 := steps_append (run_start_bit sr bc k maxc p out)
      (run_data_bits
        [bitOf b 0, bitOf b 1, bitOf b 2, bitOf b 3,
         bitOf b 4, bitOf b 5, bitOf b 6, bitOf b 7] 0 1 k maxc out (by simp))
    have hfold' : List.foldl shiftIn 0
        [bitOf b 0, bitOf b 1, bitOf b 2, bitOf b 3,
         bitOf b 4, bitOf b 5, bitOf b 6, bitOf b 7] = 4 * b := by
      simpa [shiftIn] using hfold
    rw [hfold'] at h2
    simpa using h2
  have h3 := steps_append hpre
    (run_stop_bit (4 * b) k maxc out (by rw [hA]; exact hB) (by rw [hA]; exact hC) hk)
  rw [e, h3, hA, hD]
  simp

/-- Sequence of encoded octets from AwaitingStartBit: the bytes are
stored consecutively from index byteCnt; no EOF is signalled. -/
lemma run_bytes (M : List Nat) :
    ∀ (sr bc k maxc p : Nat) (out : Nat → Nat),
    (∀ b ∈ M, b < 256) → k + M.length < maxc →
    ∃ sr2 bc2 p2 sts,
      uartRun { state := .AWAITING_START_BIT, shiftReg := sr, bitCnt := bc,
                byteCnt := k, byteCntMax := maxc, posCnt := p, output := out }
        (rep4 (M.flatMap byteBits)) =
      ({ state := .AWAITING_START_BIT, shiftReg := sr2, bitCnt := bc2,
         byteCnt := k + M.length, byteCntMax := maxc, posCnt := p2,
         output := writeList out k M }, [], sts) := by
  induction M with
  | nil =>
    intro sr bc k maxc p out hM hlen
    exact ⟨sr, bc, p, [], by simp [uartRun, rep4, writeList]⟩
  | cons b bs ih =>
    intro sr bc k maxc p out hM hlen
    have e : rep4 ((b :: bs).flatMap byteBits) =
        rep4 (byteBits b) ++ rep4 (bs.flatMap byteBits) := by
      simp [rep4, byteBits]
    obtain ⟨sr2, bc2, p2, sts, hrest⟩ :=
      ih (512 + 2 * b) 10 (k + 1) maxc 1 (Function.update out k b)
        (fun x hx => hM x (List.mem_cons_of_mem b hx))
        (by simp at hlen; omega)
    have hbyte := run_one_byte b (hM b (List.mem_cons_self b bs)) sr bc k maxc p out
      (by simp at hlen; omega)
    have h2 := steps_append hbyte hrest
    rw [e]
    refine ⟨sr2, bc2, p2, (k, b) :: sts, ?_⟩
    rw [h2]
    have harith : k + 1 + bs.length = k + (b :: bs).length := by simp; omega
    rw [harith]
    rfl

/-- Variant of run_eof_bit for an empty frame: with byteCnt 0 the EOF
character is recognised but not signalled (the C code returns true only
when byteCnt is nonzero). -/
lemma run_eof_bit_zero (maxc : Nat) (out : Nat → Nat) :
    uartRun { state := .RECEIVING_DATA, shiftReg := 0, bitCnt := 9,
              byteCnt := 0, byteCntMax := maxc, posCnt := 3, output := out }
      [false, false, false, false] =
      ({ state := .GOT_FALLING_EDGE_OF_SOF, shiftReg := 0, bitCnt := 0,
         byteCnt := 0, byteCntMax := maxc, posCnt := 0, output := out },
       [], []) := by
  simp [uartRun, Handle14443bSampleFromReader]

/-- The encoded EOF (ten zeros) plus the eight-one fill, from
AwaitingStartBit with a nonzero byte count: exactly one EOF is signalled,
carrying the current byte count and output, and the UART ends Unsynced. -/
lemma run_eof_block (sr bc k maxc p : Nat) (out : Nat → Nat) (hk : k ≠ 0) :
    uartRun { state := .AWAITING_START_BIT, shiftReg := sr, bitCnt := bc,
              byteCnt := k, byteCntMax := maxc, posCnt := p, output := out }
      (rep4 (List.replicate 10 false ++ List.replicate 8 true)) =
      ({ state := .UNSYNCD, shiftReg := 0, bitCnt := 1, byteCnt := k,
         byteCntMax := maxc, posCnt := 2, output := out }, [(k, out)], []) := by
  have e : rep4 (List.replicate 10 false ++ List.replicate 8 true) =
      [false, false, false, false] ++
        (rep4 (List.replicate 8 false) ++
          ([false, false, false, false] ++ List.replicate 32 true)) := rfl
  rw [e]
  refine steps_append (run_start_bit sr bc k maxc p out) ?_
  have h2 := run_data_bits (List.replicate 8 false) 0 1 k maxc out (by simp)
  rw [show List.foldl shiftIn 0 (List.replicate 8 false) = 0 from by decide] at h2
  refine steps_append h2 ?_
  exact steps_append (run_eof_bit k maxc out hk) (run_tail_ones k maxc out)

/-- The same block with byte count zero signals nothing. -/
lemma run_eof_block_zero (sr bc maxc p : Nat) (out : Nat → Nat) :
    uartRun { state := .AWAITING_START_BIT, shiftReg := sr, bitCnt := bc,
              byteCnt := 0, byteCntMax := maxc, posCnt := p, output := out }
      (rep4 (List.replicate 10 false ++ List.replicate 8 true)) =
      ({ state := .UNSYNCD, shiftReg := 0, bitCnt := 1, byteCnt := 0,
         byteCntMax := maxc, posCnt := 2, output := out }, [], []) := by
  have e : rep4 (List.replicate 10 false ++ List.replicate 8 true) =
      [false, false, false, false] ++
        (rep4 (List.replicate 8 false) ++
          ([false, false, false, false] ++ List.replicate 32 true)) := rfl
  rw [e]
  refine steps_append (run_start_bit sr bc 0 maxc p out) ?_
  have h2 := run_data_bits (List.replicate 8 false) 0 1 0 maxc out (by simp)
  rw [show List.foldl shiftIn 0 (List.replicate 8 false) = 0 from by decide] at h2
  refine steps_append h2 ?_
  exact steps_append (run_eof_bit_zero maxc out) (run_tail_ones 0 maxc out)

/-- writeList does not touch indices below the write position. -/
lemma writeList_lt (M : List Nat) :
    ∀ (out : Nat → Nat) (k j : Nat), j < k → writeList out k M j = out j := by
  induction M with
  | nil => intro out k j h; rfl
  | cons b bs ih =>
    intro out k j h
    show writeList (Function.update out k b) (k + 1) bs j = out j
    rw [ih _ _ _ (by omega)]
    exact Function.update_noteq (by omega) _ _

/-- writeList stores the bytes of the list at consecutive indices. -/
lemma writeList_getD (M : List Nat) :
    ∀ (out : Nat → Nat) (k i : Nat), i < M.length →
      writeList out k M (k + i) = M.getD i 0 := by
  induction M with
  | nil => intro out k i h; simp at h
  | cons b bs ih =>
    intro out k i h
    cases i with
    | zero =>
      show writeList (Function.update out k b) (k + 1) bs (k + 0) = b
      rw [writeList_lt _ _ _ _ (by omega)]
      simp
    | succ i =>
      show writeList (Function.update out k b) (k + 1) bs (k + (i + 1)) = (b :: bs).getD (i + 1) 0
      rw [show k + (i + 1) = (k + 1) + i from by omega,
          ih _ _ _ (by simpa using h)]
      rfl

/-- Claim C1, amended: for every octet sequence M with 1 ≤ card and fewer
than MAX_FRAME_SIZE octets, encoding M with CodeIso14443bAsReader and
feeding each stuffbit four times into the tag-side ASK UART makes the
UART signal EOF exactly once, with its output buffer then holding exactly
the bytes of M (byte count M.length, bytes at indices 0..M.length-1).
The two boundary cases excluded from the original claim fail: the empty
sequence is never signalled (the EOF branch requires byteCnt nonzero) and
a sequence of exactly MAX_FRAME_SIZE octets overflows byteCntMax. -/
theorem C1_codec_roundtrip_amended (M : List Nat) (hbytes : ∀ b ∈ M, b < 256)
    (hne : 1 ≤ M.length) (hlt : M.length < MAX_FRAME_SIZE) (out : Nat → Nat) :
    ∃ F, (uartRun (Uart14bInit out) (rep4 (CodeIso14443bAsReader M))).2.1 =
        [(M.length, F)] ∧ ∀ i < M.length, F i = M.getD i 0 := by
  have e : rep4 (CodeIso14443bAsReader M) =
      rep4 (List.replicate 10 false ++ [true, true]) ++
        (rep4 (M.flatMap byteBits) ++
          rep4 (List.replicate 10 false ++ List.replicate 8 true)) := by
    simp [rep4, CodeIso14443bAsReader, List.flatMap_append, List.append_assoc]
  obtain ⟨sr2, bc2, p2, sts, hmid⟩ :=
    run_bytes M 0 11 0 MAX_FRAME_SIZE 5 out hbytes (by omega)
  have h2 := steps_append (run_sof MAX_FRAME_SIZE out)
    (steps_append hmid
      (run_eof_block sr2 bc2 (0 + M.length) MAX_FRAME_SIZE p2 (writeList out 0 M)
        (by omega)))
  refine ⟨writeList out 0 M, ?_, ?_⟩
  · rw [show Uart14bInit out =
        { state := .UNSYNCD, shiftReg := 0, bitCnt := 0, byteCnt := 0,
          byteCntMax := MAX_FRAME_SIZE, posCnt := 0, output := out } from rfl,
      e, h2]
    simp
  · intro i hi
    simpa using writeList_getD M out 0 i hi

/-- Counterexample to claim C1 as stated: for the empty octet sequence
(length 0 ≤ MAX_FRAME_SIZE) the UART never signals EOF at all, because
the EOF branch requires a nonzero byte count. -/
theorem C1_counterexample_empty_frame :
    ¬ (∀ (M : List Nat), (∀ b ∈ M, b < 256) → M.length ≤ MAX_FRAME_SIZE →
        ∀ out : Nat → Nat,
        ∃ F, (uartRun (Uart14bInit out) (rep4 (CodeIso14443bAsReader M))).2.1 =
          [(M.length, F)] ∧ ∀ i < M.length, F i = M.getD i 0) := by
  intro h
  obtain ⟨F, hF, -⟩ := h [] (by simp) (by norm_num [MAX_FRAME_SIZE]) (fun _ => 0)
  have e : rep4 (CodeIso14443bAsReader ([] : List Nat)) =
      rep4 (List.replicate 10 false ++ [true, true]) ++
        rep4 (List.replicate 10 false ++ List.replicate 8 true) := rfl
  have hrun := steps_append (run_sof MAX_FRAME_SIZE (fun _ => 0))
    (run_eof_block_zero 0 11 MAX_FRAME_SIZE 5 (fun _ => 0))
  rw [show Uart14bInit (fun _ => 0) =
      { state := .UNSYNCD, shiftReg := 0, bitCnt := 0, byteCnt := 0,
        byteCntMax := MAX_FRAME_SIZE, posCnt := 0, output := fun _ => 0 } from rfl,
    e, hrun] at hF
  simp at hF

/-- Witness for the amended C1: the WUPB payload 05 00 08 39 73 round-trips
through the ASK UART. -/
theorem C1_codec_roundtrip_amended_witness :
    ∃ F, (uartRun (Uart14bInit (fun _ => 0))
        (rep4 (CodeIso14443bAsReader [0x05, 0x00, 0x08, 0x39, 0x73]))).2.1 =
      [(([0x05, 0x00, 0x08, 0x39, 0x73] : List Nat).length, F)] ∧
      ∀ i < ([0x05, 0x00, 0x08, 0x39, 0x73] : List Nat).length,
        F i = ([0x05, 0x00, 0x08, 0x39, 0x73] : List Nat).getD i 0 :=
  C1_codec_roundtrip_amended [0x05, 0x00, 0x08, 0x39, 0x73] (by decide) (by decide)
    (by decide) (fun _ => 0)

/-- The UART write invariant: the byte count never exceeds byteCntMax and
is strictly below it whenever the UART is mid-frame (AwaitingStartBit or
ReceivingData), i.e. whenever a further store is still possible. -/
def UartInv (u : Uart14b) : Prop :=
  u.byteCnt ≤ u.byteCntMax ∧
  ((u.state = UartState.AWAITING_START_BIT ∨ u.state = UartState.RECEIVING_DATA) →
    u.byteCnt < u.byteCntMax)

set_option maxHeartbeats 2000000 in
/-- One UART step preserves the invariant, keeps byteCntMax unchanged,
and performs stores only at indices strictly below byteCntMax. -/
lemma uartStep_inv (u : Uart14b) (bit : Bool) (hmax : 0 < u.byteCntMax)
    (h : UartInv u) :
    UartInv (Handle14443bSampleFromReader u bit).1 ∧
    (Handle14443bSampleFromReader u bit).1.byteCntMax = u.byteCntMax ∧
    (∀ e, (Handle14443bSampleFromReader u bit).2.2 = some e →
      e.1 < u.byteCntMax) := by
  obtain ⟨st, sr, bc, k, maxc, pc, out⟩ := u
  obtain ⟨hle, hmid⟩ := h
  cases st <;>
    simp only [Handle14443bSampleFromReader] <;>
    split_ifs <;>
    simp_all [UartInv] <;>
    omega

/-- The run-level invariant from any state satisfying it. -/
lemma uartRun_inv (bs : List Bool) :
    ∀ (u : Uart14b), 0 < u.byteCntMax → UartInv u →
      (∀ e ∈ (uartRun u bs).2.2, e.1 < u.byteCntMax) ∧
      (uartRun u bs).1.byteCntMax = u.byteCntMax ∧
      UartInv (uartRun u bs).1 := by
  induction bs with
  | nil => intro u hmax h; exact ⟨by simp [uartRun], rfl, h⟩
  | cons b bs ih =>
    intro u hmax h
    obtain ⟨hinv, hcnt, hstore⟩ := uartStep_inv u b hmax h
    obtain ⟨ih1, ih2, ih3⟩ :=
      ih (Handle14443bSampleFromReader u b).1 (by omega) hinv
    simp only [uartRun]
    refine ⟨?_, by rw [ih2, hcnt], by exact ih3⟩
    intro e he
    rcases hst : (Handle14443bSampleFromReader u b).2.2 with - | ev
    · rw [hst] at he
      exact hcnt ▸ ih1 e he
    · rw [hst] at he
      rcases List.mem_cons.mp he with he | he
      · exact he ▸ hstore ev hst
      · exact hcnt ▸ ih1 e he

/-- Claim C9: for every sample sequence fed after Uart14bInit, every store
through Uart.output is at an index strictly below Uart.byteCntMax
(= MAX_FRAME_SIZE), Uart.byteCnt never exceeds byteCntMax (the bound holds
after every prefix, since the sequence is arbitrary), and whenever the
byte count has reached byteCntMax the UART is no longer mid-frame: the
overflow branch has aborted to Unsynced, so no further byte is stored. -/
theorem C9_bounded_uart_writes (out : Nat → Nat) (bs : List Bool) :
    (∀ e ∈ (uartRun (Uart14bInit out) bs).2.2, e.1 < MAX_FRAME_SIZE) ∧
    (uartRun (Uart14bInit out) bs).1.byteCnt ≤ MAX_FRAME_SIZE ∧
    (((uartRun (Uart14bInit out) bs).1.state = UartState.AWAITING_START_BIT ∨
      (uartRun (Uart14bInit out) bs).1.state = UartState.RECEIVING_DATA) →
      (uartRun (Uart14bInit out) bs).1.byteCnt < MAX_FRAME_SIZE) := by
  obtain ⟨h1, h2, h3⟩ := uartRun_inv bs (Uart14bInit out)
    (by norm_num [Uart14bInit, Uart14bReset, MAX_FRAME_SIZE])
    (by constructor <;> simp [Uart14bInit, Uart14bReset, MAX_FRAME_SIZE, UartInv])
  have hmax : (Uart14bInit out).byteCntMax = MAX_FRAME_SIZE := rfl
  rw [hmax] at h1 h2
  exact ⟨h1, h2 ▸ h3.1, h2 ▸ h3.2⟩
